import Mathlib

/-!
Shallow embedding of `radioglobe_core.py` (class `RadioGlobeCore`): the
station cache (SQLite table `stations`), the directory lookup
`get_stations` / `_get_cached_stations` / `_cache_stations`, and the
playback operations `play` / `set_volume`.

Conventions of the embedding:
* SQL / JSON scalar values are `Val` (string, integer, NULL); timestamps
  (`datetime`) are integers counting seconds, so `timedelta(hours=6)`
  is the integer `21600`.
* The `stations` table is a `List Row` in physical row order; executing
  `INSERT OR REPLACE` deletes any row with the same non-NULL `id` and
  appends the fresh row (SQLite permits NULL in a TEXT PRIMARY KEY and
  two NULL ids never conflict). Those statements only reach the
  transaction-local state `cache_stations_txn`: `_cache_stations` never
  calls `commit()`, and `contextlib.closing` merely calls `close()`,
  which rolls the implicit DML transaction back — so the persistent
  table (`cache_stations`) is left unchanged by the batch.
* A raw directory record (the JSON objects returned by
  `{base}/stations/search`) is a `DirStation` with the documented fields
  `stationuuid, name, url, country, countrycode, tags, homepage,
  geo_lat, geo_long, bitrate, votes`; a missing or null field is `none`,
  matching Python's `dict.get`.
* Collaborator failures (network, storage) are injected through a
  `World` record; `get_stations_core` is the body of the `try:` block
  and returns `Except Failure`, while `get_stations` is the full method
  with its `except` clause, hence total.
-/

namespace RadioGlobe

/-- A SQL or JSON scalar value: string, integer, or NULL/None. -/
inductive Val where
  | str (s : String)
  | int (n : Int)
  | null
deriving DecidableEq, Repr

/-- A Python dict as returned to callers: keys paired with values, in
key-insertion order. -/
abbrev Rec := List (String × Val)

/-- One raw station record of the directory response, with the fields the
external service documents; `none` models a missing or null field, which
is what `s.get(...)` in `_cache_stations` turns into `None`. -/
structure DirStation where
  stationuuid : Option String
  name : Option String
  url : Option String
  country : Option String
  countrycode : Option String
  tags : Option String
  homepage : Option String
  geo_lat : Option Int
  geo_long : Option Int
  bitrate : Option Int
  votes : Option Int
deriving DecidableEq, Repr

/-- One row of the `stations` table, columns in `CREATE TABLE` order:
`id, name, url, country, code, tags, homepage, lat, lon, last_updated`.
`last_updated` is always stamped by `_cache_stations`, hence not `Option`. -/
structure Row where
  id : Option String
  name : Option String
  url : Option String
  country : Option String
  code : Option String
  tags : Option String
  homepage : Option String
  lat : Option Int
  lon : Option Int
  last_updated : Int
deriving DecidableEq, Repr

/-- `self.cache_expiry = timedelta(hours=6)`, in seconds. -/
def cache_expiry : Int := 21600

/-- The tuple `_cache_stations` binds for one record: column values drawn
with `.get` from the directory record, plus `datetime.now()`. -/
def rowOfStation (s : DirStation) (now : Int) : Row :=
  { id := s.stationuuid
    name := s.name
    url := s.url
    country := s.country
    code := s.countrycode
    tags := s.tags
    homepage := s.homepage
    lat := s.geo_lat
    lon := s.geo_long
    last_updated := now }

/-- Whether an existing row `q` is NOT the conflict victim of an insert
with id `rid`: a NULL `rid` conflicts with nothing (NULLs are distinct
under the PRIMARY KEY constraint), otherwise exactly the rows with the
same id are replaced. -/
def keeps (rid : Option String) (q : Row) : Bool :=
  decide (rid = none ∨ q.id ≠ rid)

/-- SQLite `INSERT OR REPLACE` on the `stations` table: any row whose
non-NULL `id` equals the new row's `id` is deleted and the new row is
appended. -/
def insertOrReplace (tbl : List Row) (r : Row) : List Row :=
  tbl.filter (keeps r.id) ++ [r]

/-- Transaction-local state of the `stations` table while the connection
opened by `_cache_stations` is live: `executemany` of `INSERT OR REPLACE`
over the batch in order, each tuple stamped with the same `now`. The
statements run inside the implicit DML transaction sqlite3 opens, and
`_cache_stations` never commits it. -/
def cache_stations_txn (tbl : List Row) (stations : List DirStation) (now : Int) : List Row :=
  stations.foldl (fun t s => insertOrReplace t (rowOfStation s now)) tbl

/-- Closing a sqlite3 connection without `commit()`: the pending implicit
DML transaction is rolled back, so the transaction state is discarded and
the persistent table keeps its prior contents. -/
def closeWithoutCommit (persisted _txnState : List Row) : List Row :=
  persisted

/-- `_cache_stations(stations)`: opens a fresh connection, executes the
`INSERT OR REPLACE` batch (reaching the transaction state
`cache_stations_txn`), then `closing(...)` closes the connection with no
`commit()` call anywhere in the method — the batch is rolled back and the
persistent `stations` table is returned unchanged. -/
def cache_stations (tbl : List Row) (stations : List DirStation) (now : Int) : List Row :=
  closeWithoutCommit tbl (cache_stations_txn tbl stations now)

/-- `_get_cached_stations(country)`: `SELECT * FROM stations WHERE
country = ? AND last_updated > ?` with cutoff `now - expiry`; a NULL
`country` column matches nothing. -/
def get_cached_stations (tbl : List Row) (country : String) (now expiry : Int) : List Row :=
  tbl.filter (fun r => decide (r.country = some country ∧ r.last_updated > now - expiry))

/-- All rows stored for a country, regardless of freshness. -/
def storedFor (tbl : List Row) (country : String) : List Row :=
  tbl.filter (fun r => decide (r.country = some country))

/-- Parameters of one `/stations/search` request. -/
structure Query where
  country : String
  hidebroken : String
  order : String
  reverse : String
  limit : Nat
deriving DecidableEq, Repr

/-- The `params` dict built by `get_stations`. -/
def searchQuery (country : String) : Query :=
  { country := country
    hidebroken := "true"
    order := "votes"
    reverse := "true"
    limit := 500 }

/-- The exceptions that can escape the collaborators inside the `try:`
block of `get_stations`. -/
inductive Failure where
  | transport
  | storageLookup
  | storageWrite
deriving DecidableEq, Repr

/-- Environment of one `get_stations` call: current table, the directory
service's response per query (`Except.error` is a transport failure:
network error, timeout, malformed JSON, non-2xx), and injected storage
failures for the lookup and the write. -/
structure World where
  table : List Row
  dir : Query → Except Unit (List DirStation)
  lookupErr : Bool
  writeErr : Bool

/-- Outcome of the `try:` body: the value or the escaping exception,
plus the table state and the directory calls issued up to that point. -/
structure CoreOut where
  res : Except Failure (List Rec × Nat)
  table : List Row
  calls : List Query

/-- Observable outcome of `get_stations`: returned records and count,
final table state, directory search calls issued. -/
structure GSOut where
  result : List Rec
  count : Nat
  table : List Row
  calls : List Query
deriving DecidableEq, Repr

/-- An optional string as a dict value. -/
def optStrVal : Option String → Val
  | none => Val.null
  | some s => Val.str s

/-- An optional integer as a dict value. -/
def optIntVal : Option Int → Val
  | none => Val.null
  | some n => Val.int n

/-- `dict(row)` for a `sqlite3.Row`: keys are the column names in
`SELECT *` (schema) order. -/
def rowDict (r : Row) : Rec :=
  [("id", optStrVal r.id),
   ("name", optStrVal r.name),
   ("url", optStrVal r.url),
   ("country", optStrVal r.country),
   ("code", optStrVal r.code),
   ("tags", optStrVal r.tags),
   ("homepage", optStrVal r.homepage),
   ("lat", optIntVal r.lat),
   ("lon", optIntVal r.lon),
   ("last_updated", Val.int r.last_updated)]

/-- A raw directory record as the dict `response.json()` yields. -/
def dirDict (s : DirStation) : Rec :=
  [("stationuuid", optStrVal s.stationuuid),
   ("name", optStrVal s.name),
   ("url", optStrVal s.url),
   ("country", optStrVal s.country),
   ("countrycode", optStrVal s.countrycode),
   ("tags", optStrVal s.tags),
   ("homepage", optStrVal s.homepage),
   ("geo_lat", optIntVal s.geo_lat),
   ("geo_long", optIntVal s.geo_long),
   ("bitrate", optIntVal s.bitrate),
   ("votes", optIntVal s.votes)]

/-- Key list of a cached row dict. -/
def rowKeys : List String :=
  ["id", "name", "url", "country", "code", "tags", "homepage", "lat", "lon", "last_updated"]

/-- Key list of a raw directory record. -/
def dirKeys : List String :=
  ["stationuuid", "name", "url", "country", "countrycode", "tags", "homepage",
   "geo_lat", "geo_long", "bitrate", "votes"]

/-- Body of the `try:` block of `get_stations`: cached lookup, truthiness
test `if cached:`, else one search request, `raise_for_status`/JSON
decode, the cache write (whose batch is rolled back at connection
close), return. A collaborator failure escapes as the corresponding
exception. -/
def get_stations_core (w : World) (country : String) (now : Int) : CoreOut :=
  if w.lookupErr then
    ⟨Except.error Failure.storageLookup, w.table, []⟩
  else if (get_cached_stations w.table country now cache_expiry).isEmpty then
    match w.dir (searchQuery country) with
    | Except.error _ => ⟨Except.error Failure.transport, w.table, [searchQuery country]⟩
    | Except.ok stations =>
      if w.writeErr then
        ⟨Except.error Failure.storageWrite, w.table, [searchQuery country]⟩
      else
        ⟨Except.ok (stations.map dirDict, stations.length),
         cache_stations w.table stations now, [searchQuery country]⟩
  else
    ⟨Except.ok ((get_cached_stations w.table country now cache_expiry).map rowDict,
      (get_cached_stations w.table country now cache_expiry).length), w.table, []⟩

/-- `get_stations(country)` with its `except` clause: any exception from
the body is logged and turned into the return value `([], 0)`. -/
def get_stations (w : World) (country : String) (now : Int) : GSOut :=
  match get_stations_core w country now with
  | ⟨Except.ok (recs, n), tbl, calls⟩ => ⟨recs, n, tbl, calls⟩
  | ⟨Except.error _, tbl, calls⟩ => ⟨[], 0, tbl, calls⟩

/-- The non-NULL ids occurring in a batch of directory records. -/
def batchIds (ss : List DirStation) : List String :=
  ss.filterMap (fun s => s.stationuuid)

/-- Whether a pre-existing row survives the whole batch: a NULL-id row is
never replaced; a row with id `i` survives iff no record of the batch
carries id `i`. -/
def keptBy (ss : List DirStation) (r : Row) : Bool :=
  match r.id with
  | none => true
  | some i => decide (i ∉ batchIds ss)

/-- Commands the playback session issues to the media engine. -/
inductive Cmd where
  | stopCmd
  | newMedia (url : String)
  | addOption (o : String)
  | setMedia
  | setVol (v : Int)
  | playCmd
deriving DecidableEq, Repr

/-- Engine behavior oracle: which commands raise an engine-level
exception, and the return code of `player.play()`. -/
structure Engine where
  failsAt : Cmd → Bool
  playRet : Int

/-- The engine commands `play(url)` issues in order when nothing raises:
stop first iff currently playing, then load, option, bind, volume, play. -/
def playTrace (playing : Bool) (url : String) (vol : Int) : List Cmd :=
  (if playing then [Cmd.stopCmd] else []) ++
  [Cmd.newMedia url, Cmd.addOption "network-caching=3000", Cmd.setMedia,
   Cmd.setVol vol, Cmd.playCmd]

/-- Run commands in order; the first failing command raises, cutting the
trace there. Returns (no exception, commands attempted). -/
def runCmds (e : Engine) : List Cmd → Bool × List Cmd
  | [] => (true, [])
  | c :: cs =>
    if e.failsAt c then (false, [c])
    else ((runCmds e cs).1, c :: (runCmds e cs).2)

/-- `play(url)`: runs the command sequence inside `try:`; if everything
succeeds the result is `player.play() == 0`, and any engine exception is
caught, logged, and turned into `False`. -/
def play (e : Engine) (playing : Bool) (vol : Int) (url : String) : Bool × List Cmd :=
  if (runCmds e (playTrace playing url vol)).1 then
    (decide (e.playRet = 0), (runCmds e (playTrace playing url vol)).2)
  else
    (false, (runCmds e (playTrace playing url vol)).2)

/-- `set_volume(volume)`: guard `0 <= volume <= 100`; in range, the sticky
volume becomes `volume` and, if a player handle exists, the engine volume
is set; out of range, nothing happens. Returns (new sticky volume,
engine commands issued). -/
def set_volume (sticky : Int) (hasPlayer : Bool) (v : Int) : Int × List Cmd :=
  if 0 ≤ v ∧ v ≤ 100 then
    (v, if hasPlayer then [Cmd.setVol v] else [])
  else
    (sticky, [])

/-- A well-formed directory record, as used for concrete witnesses. -/
def sampleStation : DirStation :=
  ⟨some "uuid-1", some "Radio One", some "http://stream.example/one", some "Germany",
   some "DE", some "pop", some "http://example.org", some 52, some 13, some 128, some 10⟩

/-- A directory record lacking a directory-provided id. -/
def noidStation : DirStation :=
  ⟨none, some "Ghost FM", some "http://stream.example/ghost", some "Germany",
   some "DE", none, none, none, none, none, none⟩

/-- The cached row produced for `sampleStation` at time 0. -/
def sampleRow : Row := rowOfStation sampleStation 0

/-- A world whose cache lookup raises a storage error while the directory
would answer with one station. -/
def failLookupWorld : World :=
  ⟨[], fun _ => Except.ok [sampleStation], true, false⟩

/-- A world whose directory request fails at the transport level. -/
def transportFailWorld : World :=
  ⟨[], fun _ => Except.error (), false, false⟩

/-- A world holding one fresh cached row, directory never consulted. -/
def hitWorld : World :=
  ⟨[sampleRow], fun _ => Except.ok [], false, false⟩

/-- A world with an empty cache and a directory answering one station. -/
def missWorld : World :=
  ⟨[], fun _ => Except.ok [sampleStation], false, false⟩

/-- An engine on which no command raises and `play()` returns 0. -/
def engOk : Engine := ⟨fun _ => false, 0⟩

/-- Membership in the result of one replace-insert: old row or new row. -/
theorem mem_insertOrReplace {r x : Row} {tbl : List Row}
    (h : r ∈ insertOrReplace tbl x) : r ∈ tbl ∨ r = x := by
  unfold insertOrReplace at h
  rcases List.mem_append.mp h with h1 | h1
  · exact Or.inl (List.mem_filter.mp h1).1
  · exact Or.inr (List.mem_singleton.mp h1)

/-- A row with NULL id is never the victim of a replace. -/
theorem nullRow_mem_insertOrReplace {r : Row} (hr : r.id = none) {tbl : List Row}
    (h : r ∈ tbl) (x : Row) : r ∈ insertOrReplace tbl x := by
  refine List.mem_append.mpr (Or.inl (List.mem_filter.mpr ⟨h, ?_⟩))
  unfold keeps
  cases hx : x.id with
  | none => simp
  | some i => simp [hr]

/-- Replace-insert preserves the presence of some row with a given id. -/
theorem exists_id_insertOrReplace {i : String} {tbl : List Row}
    (h : ∃ r ∈ tbl, r.id = some i) (x : Row) :
    ∃ r ∈ insertOrReplace tbl x, r.id = some i := by
  obtain ⟨r, hr, hri⟩ := h
  unfold insertOrReplace
  by_cases hx : x.id = some i
  · exact ⟨x, List.mem_append.mpr (Or.inr (List.mem_singleton.mpr rfl)), hx⟩
  · refine ⟨r, List.mem_append.mpr (Or.inl (List.mem_filter.mpr ⟨hr, ?_⟩)), hri⟩
    unfold keeps
    cases hxid : x.id with
    | none => simp
    | some j =>
      have : i ≠ j := fun hij => hx (by rw [hxid, hij])
      simp [hri, hxid, this]

/-- Every row of the batched write is an old row or a freshly stamped one. -/
theorem mem_cache_stations_txn {r : Row} {ss : List DirStation} {now : Int} :
    ∀ {tbl : List Row}, r ∈ cache_stations_txn tbl ss now →
      r ∈ tbl ∨ ∃ s ∈ ss, r = rowOfStation s now := by
  induction ss with
  | nil => intro tbl h; exact Or.inl h
  | cons s t ih =>
    intro tbl h
    rcases ih (show r ∈ cache_stations_txn (insertOrReplace tbl (rowOfStation s now)) t now
      from h) with h1 | h1
    · rcases mem_insertOrReplace h1 with h2 | h2
      · exact Or.inl h2
      · exact Or.inr ⟨s, List.mem_cons_self s t, h2⟩
    · obtain ⟨u, hu, hru⟩ := h1
      exact Or.inr ⟨u, List.mem_cons_of_mem s hu, hru⟩

/-- A NULL-id row survives an entire batched write. -/
theorem nullRow_mem_cache_stations_txn {r : Row} (hr : r.id = none) {ss : List DirStation}
    {now : Int} : ∀ {tbl : List Row}, r ∈ tbl → r ∈ cache_stations_txn tbl ss now := by
  induction ss with
  | nil => intro tbl h; exact h
  | cons s t ih =>
    intro tbl h
    exact ih (nullRow_mem_insertOrReplace hr h (rowOfStation s now))

/-- A batched write preserves the presence of some row with a given id. -/
theorem exists_id_cache_stations_txn {i : String} {ss : List DirStation} {now : Int} :
    ∀ {tbl : List Row}, (∃ r ∈ tbl, r.id = some i) →
      ∃ r ∈ cache_stations_txn tbl ss now, r.id = some i := by
  induction ss with
  | nil => intro tbl h; exact h
  | cons s t ih =>
    intro tbl h
    exact ih (exists_id_insertOrReplace h (rowOfStation s now))

/-- Surviving a batch headed by `s` means surviving the rest of the
batch and not being the conflict victim of `s`. -/
theorem keptBy_cons (s : DirStation) (t : List DirStation) (q : Row) :
    keptBy (s :: t) q = (keptBy t q && keeps s.stationuuid q) := by
  unfold keptBy keeps batchIds
  cases q.id with
  | none =>
    cases hs : s.stationuuid with
    | none => simp
    | some i => simp
  | some j =>
    cases hs : s.stationuuid with
    | none => simp [List.filterMap_cons, hs]
    | some i =>
      simp only [List.filterMap_cons, hs]
      by_cases hji : j = i
      · simp [hji]
      · by_cases hm : j ∈ t.filterMap (fun s => s.stationuuid) <;>
          simp [List.mem_cons, hji, hm]

/-- The batch with no ids keeps every row. -/
theorem keptBy_nil (q : Row) : keptBy [] q = true := by
  unfold keptBy batchIds
  cases q.id <;> simp

/-- Decomposition of a batched write: the pre-existing rows that survive
the whole batch, in order, followed by the rows the batch itself built
from the empty table. -/
theorem cache_stations_txn_decomp (ss : List DirStation) (now : Int) :
    ∀ tbl : List Row,
      cache_stations_txn tbl ss now = tbl.filter (keptBy ss) ++ cache_stations_txn [] ss now := by
  induction ss with
  | nil =>
    intro tbl
    show tbl = tbl.filter (keptBy []) ++ ([] : List Row)
    rw [List.append_nil]
    rw [show tbl.filter (keptBy []) = tbl.filter (fun _ => true) from
      List.filter_congr (fun q _ => keptBy_nil q)]
    exact (List.filter_true tbl).symm
  | cons s t ih =>
    intro tbl
    show cache_stations_txn (insertOrReplace tbl (rowOfStation s now)) t now = _
    rw [ih (insertOrReplace tbl (rowOfStation s now))]
    have hnil : cache_stations_txn [] (s :: t) now
        = cache_stations_txn (insertOrReplace [] (rowOfStation s now)) t now := rfl
    rw [hnil, ih (insertOrReplace [] (rowOfStation s now))]
    rw [show (insertOrReplace tbl (rowOfStation s now)).filter (keptBy t)
        = tbl.filter (keptBy (s :: t))
          ++ (insertOrReplace [] (rowOfStation s now)).filter (keptBy t) from ?_]
    · rw [List.append_assoc]
    · show ((tbl.filter (keeps s.stationuuid) ++ [rowOfStation s now]).filter (keptBy t)) = _
      rw [List.filter_append, List.filter_filter]
      rw [show tbl.filter (keptBy (s :: t))
          = tbl.filter (fun q => keptBy t q && keeps s.stationuuid q) from
        List.filter_congr (fun q _ => keptBy_cons s t q)]
      rfl

/-- When every record of the batch carries an id, none of the rows the
batch builds survives a second pass of the same batch. -/
theorem filter_keptBy_self_nil {ss : List DirStation} (h : ∀ s ∈ ss, s.stationuuid ≠ none)
    (now : Int) : (cache_stations_txn [] ss now).filter (keptBy ss) = [] := by
  rw [List.filter_eq_nil_iff]
  intro r hr
  rcases mem_cache_stations_txn hr with h1 | h1
  · cases h1
  · obtain ⟨s, hsmem, rfl⟩ := h1
    cases hsid : s.stationuuid with
    | none => exact absurd hsid (h s hsmem)
    | some i =>
      unfold keptBy
      have hid : (rowOfStation s now).id = some i := by simp [rowOfStation, hsid]
      rw [hid]
      simp only [decide_eq_true_eq]
      intro hni
      exact hni (List.mem_filterMap.mpr ⟨s, hsmem, hsid⟩)

/-- Filtering twice with the same predicate filters once. -/
theorem filter_idem (l : List Row) (p : Row → Bool) :
    (l.filter p).filter p = l.filter p := by
  rw [List.filter_filter]
  exact List.filter_congr (fun a _ => by cases p a <;> rfl)

/-- When every row stored for a country is fresh, the fresh lookup
returns exactly the rows stored for that country. -/
theorem cached_eq_stored_of_fresh {tbl : List Row} {c : String} {now : Int}
    (h : ∀ r ∈ tbl, r.country = some c → now - r.last_updated < cache_expiry) :
    get_cached_stations tbl c now cache_expiry = storedFor tbl c := by
  unfold get_cached_stations storedFor
  refine List.filter_congr (fun r hr => ?_)
  rw [decide_eq_decide]
  constructor
  · rintro ⟨h1, _⟩
    exact h1
  · intro h1
    refine ⟨h1, ?_⟩
    have := h r hr h1
    omega

/-- Reduction of the try-body when the cache lookup raises. -/
theorem core_lookupErr {w : World} (h : w.lookupErr = true) (c : String) (now : Int) :
    get_stations_core w c now = ⟨Except.error Failure.storageLookup, w.table, []⟩ := by
  unfold get_stations_core
  rw [if_pos h]

/-- Reduction of the try-body on a cache hit. -/
theorem core_hit {w : World} (hl : w.lookupErr = false) {c : String} {now : Int}
    (hE : (get_cached_stations w.table c now cache_expiry).isEmpty = false) :
    get_stations_core w c now =
      ⟨Except.ok ((get_cached_stations w.table c now cache_expiry).map rowDict,
        (get_cached_stations w.table c now cache_expiry).length), w.table, []⟩ := by
  unfold get_stations_core
  rw [if_neg (by simp [hl]), if_neg (by simp [hE])]

/-- Reduction of the try-body on a cache miss with a successful fetch
and a successful write. -/
theorem core_miss {w : World} (hl : w.lookupErr = false) {c : String} {now : Int}
    (hE : (get_cached_stations w.table c now cache_expiry).isEmpty = true)
    {ss : List DirStation} (hd : w.dir (searchQuery c) = Except.ok ss)
    (hw : w.writeErr = false) :
    get_stations_core w c now =
      ⟨Except.ok (ss.map dirDict, ss.length), cache_stations w.table ss now,
       [searchQuery c]⟩ := by
  simp [get_stations_core, hl, hE, hd, hw]

/-- Reduction of the try-body on a cache miss with a transport failure. -/
theorem core_transport {w : World} (hl : w.lookupErr = false) {c : String} {now : Int}
    (hE : (get_cached_stations w.table c now cache_expiry).isEmpty = true)
    {e : Unit} (hd : w.dir (searchQuery c) = Except.error e) :
    get_stations_core w c now =
      ⟨Except.error Failure.transport, w.table, [searchQuery c]⟩ := by
  simp [get_stations_core, hl, hE, hd]

/-- Reduction of the try-body on a cache miss when the write raises. -/
theorem core_writeErr {w : World} (hl : w.lookupErr = false) {c : String} {now : Int}
    (hE : (get_cached_stations w.table c now cache_expiry).isEmpty = true)
    {ss : List DirStation} (hd : w.dir (searchQuery c) = Except.ok ss)
    (hw : w.writeErr = true) :
    get_stations_core w c now =
      ⟨Except.error Failure.storageWrite, w.table, [searchQuery c]⟩ := by
  simp [get_stations_core, hl, hE, hd, hw]

/-- A normal return of the try-body is passed through unchanged. -/
theorem get_stations_of_core_ok {w : World} {c : String} {now : Int}
    {recs : List Rec} {n : Nat} {tbl : List Row} {calls : List Query}
    (h : get_stations_core w c now = ⟨Except.ok (recs, n), tbl, calls⟩) :
    get_stations w c now = ⟨recs, n, tbl, calls⟩ := by
  unfold get_stations
  rw [h]

/-- An exception escaping the try-body is caught and becomes `([], 0)`. -/
theorem get_stations_of_core_err {w : World} {c : String} {now : Int}
    {f : Failure} {tbl : List Row} {calls : List Query}
    (h : get_stations_core w c now = ⟨Except.error f, tbl, calls⟩) :
    get_stations w c now = ⟨[], 0, tbl, calls⟩ := by
  unfold get_stations
  rw [h]

/-- The records `get_stations` returns are nothing, cached row dicts, or
raw directory dicts. -/
theorem get_stations_result_cases (w : World) (c : String) (now : Int) :
    (get_stations w c now).result = [] ∨
    (∃ rows : List Row, (get_stations w c now).result = rows.map rowDict) ∨
    (∃ ss : List DirStation, (get_stations w c now).result = ss.map dirDict) := by
  cases hl : w.lookupErr with
  | true =>
    rw [get_stations_of_core_err (core_lookupErr hl c now)]
    exact Or.inl rfl
  | false =>
    cases hE : (get_cached_stations w.table c now cache_expiry).isEmpty with
    | false =>
      rw [get_stations_of_core_ok (core_hit hl hE)]
      exact Or.inr (Or.inl ⟨get_cached_stations w.table c now cache_expiry, rfl⟩)
    | true =>
      cases hd : w.dir (searchQuery c) with
      | error e =>
        rw [get_stations_of_core_err (core_transport hl hE hd)]
        exact Or.inl rfl
      | ok ss =>
        cases hw : w.writeErr with
        | true =>
          rw [get_stations_of_core_err (core_writeErr hl hE hd hw)]
          exact Or.inl rfl
        | false =>
          rw [get_stations_of_core_ok (core_miss hl hE hd hw)]
          exact Or.inr (Or.inr ⟨ss, rfl⟩)

/-- Every command the engine was asked to run came from the intended
sequence. -/
theorem runCmds_subset (e : Engine) :
    ∀ (l : List Cmd) (x : Cmd), x ∈ (runCmds e l).2 → x ∈ l := by
  intro l
  induction l with
  | nil =>
    intro x hx
    exact absurd hx (by simp [runCmds])
  | cons c cs ih =>
    intro x hx
    unfold runCmds at hx
    by_cases hf : e.failsAt c = true
    · rw [if_pos hf] at hx
      rw [List.mem_singleton.mp hx]
      exact List.mem_cons_self c cs
    · rw [if_neg hf] at hx
      rcases List.mem_cons.mp hx with h1 | h1
      · rw [h1]
        exact List.mem_cons_self c cs
      · exact List.mem_cons_of_mem c (ih x h1)

/-- When no command raises, the whole sequence runs and succeeds. -/
theorem runCmds_ok (e : Engine) :
    ∀ l : List Cmd, (∀ c ∈ l, e.failsAt c = false) → runCmds e l = (true, l) := by
  intro l
  induction l with
  | nil => intro _; rfl
  | cons c cs ih =>
    intro h
    have hc : e.failsAt c = false := h c (List.mem_cons_self c cs)
    have hcs := ih (fun x hx => h x (List.mem_cons_of_mem c hx))
    unfold runCmds
    rw [if_neg (by simp [hc]), hcs]

/-- When some command raises, the run reports failure. -/
theorem runCmds_fail (e : Engine) :
    ∀ l : List Cmd, (∃ c ∈ l, e.failsAt c = true) → (runCmds e l).1 = false := by
  intro l
  induction l with
  | nil =>
    rintro ⟨c, hc, _⟩
    cases hc
  | cons c cs ih =>
    rintro ⟨x, hx, hfx⟩
    unfold runCmds
    by_cases hf : e.failsAt c = true
    · rw [if_pos hf]
    · rw [if_neg hf]
      show (runCmds e cs).1 = false
      rcases List.mem_cons.mp hx with h1 | h1
      · exact absurd (h1 ▸ hfx) hf
      · exact ih ⟨x, h1, hfx⟩

/-- The first command of the sequence is always the first one attempted. -/
theorem runCmds_head (e : Engine) (c : Cmd) (cs : List Cmd) :
    ((runCmds e (c :: cs)).2).head? = some c := by
  unfold runCmds
  by_cases h : e.failsAt c = true
  · rw [if_pos h]
    rfl
  · rw [if_neg h]
    rfl

/-- The attempted-command trace of `play` does not depend on the success
of the final `play()` call. -/
theorem play_snd (e : Engine) (playing : Bool) (vol : Int) (url : String) :
    (play e playing vol url).2 = (runCmds e (playTrace playing url vol)).2 := by
  unfold play
  split
  · rfl
  · rfl

/-- Every record of a batch is applied to the transaction-local state
(there is no validation in `_cache_stations`): an id-less record yields a
NULL-id row that survives the batch, and a record carrying id `i` yields
a row with id `i`. -/
theorem cache_stations_txn_applies :
    ∀ (tbl : List Row) (ss : List DirStation) (now : Int),
      (∀ s ∈ ss, s.stationuuid = none → rowOfStation s now ∈ cache_stations_txn tbl ss now) ∧
      (∀ s ∈ ss, ∀ i, s.stationuuid = some i →
        ∃ r ∈ cache_stations_txn tbl ss now, r.id = some i) := by
  have hself : ∀ (tbl : List Row) (r : Row), r ∈ insertOrReplace tbl r :=
    fun tbl r => List.mem_append.mpr (Or.inr (List.mem_singleton.mpr rfl))
  intro tbl ss now
  induction ss generalizing tbl with
  | nil =>
    constructor
    · intro s hs
      cases hs
    · intro s hs
      cases hs
  | cons a t ih =>
    constructor
    · intro s hs hnone
      rcases List.mem_cons.mp hs with h1 | h1
      · subst h1
        have hid : (rowOfStation s now).id = none := hnone
        show rowOfStation s now ∈
          cache_stations_txn (insertOrReplace tbl (rowOfStation s now)) t now
        exact nullRow_mem_cache_stations_txn hid (hself tbl (rowOfStation s now))
      · exact (ih (insertOrReplace tbl (rowOfStation a now))).1 s h1 hnone
    · intro s hs i hi
      rcases List.mem_cons.mp hs with h1 | h1
      · subst h1
        have hid : (rowOfStation s now).id = some i := hi
        show ∃ r ∈ cache_stations_txn (insertOrReplace tbl (rowOfStation s now)) t now,
          r.id = some i
        exact exists_id_cache_stations_txn
          ⟨rowOfStation s now, hself tbl (rowOfStation s now), hid⟩
      · exact (ih (insertOrReplace tbl (rowOfStation a now))).2 s h1 i hi

/-- Claim C1, counterexample: a batch holding one id-less record and one
well-formed record is wholly discarded at the Store boundary: the
connection closes without commit, so no row is stored for the id-less
record, but the remaining record of the batch is NOT applied either —
the store stays empty. -/
theorem c1_counterexample :
    noidStation.stationuuid = none ∧
    sampleStation.stationuuid = some "uuid-1" ∧
    cache_stations [] [noidStation, sampleStation] 5 = [] ∧
    storedFor (cache_stations [] [noidStation, sampleStation] 5) "Germany" = [] :=
  ⟨rfl, rfl, rfl, rfl⟩

/-- Claim C1, amended: no row is stored for a record lacking a
directory-provided id, but not by rejection at the Store boundary —
`_cache_stations` validates nothing (inside its uncommitted transaction
the id-less record yields a NULL-id row and each id-carrying record a row
with that id), and closing the connection without commit rolls the whole
batch back, so the remaining records are not applied either: the
persistent store is unchanged. -/
theorem c1_batch_rolled_back :
    ∀ (tbl : List Row) (ss : List DirStation) (now : Int),
      cache_stations tbl ss now = tbl ∧
      (∀ s ∈ ss, s.stationuuid = none →
        rowOfStation s now ∈ cache_stations_txn tbl ss now) ∧
      (∀ s ∈ ss, ∀ i, s.stationuuid = some i →
        ∃ r ∈ cache_stations_txn tbl ss now, r.id = some i) :=
  fun tbl ss now =>
    ⟨rfl, (cache_stations_txn_applies tbl ss now).1, (cache_stations_txn_applies tbl ss now).2⟩

/-- Claim C1, witness: the batch `[noidStation, sampleStation]` leaves the
store unchanged, while inside the uncommitted transaction the id-less
record did yield a NULL-id row. -/
theorem c1_witness :
    cache_stations [] [noidStation, sampleStation] 7 = [] ∧
    rowOfStation noidStation 7 ∈ cache_stations_txn [] [noidStation, sampleStation] 7 :=
  ⟨(c1_batch_rolled_back [] [noidStation, sampleStation] 7).1,
   (c1_batch_rolled_back [] [noidStation, sampleStation] 7).2.1 noidStation
     (List.mem_cons_self noidStation [sampleStation]) rfl⟩

/-- Claim C2: for a country whose stored rows are all fresh at query time
(and at least one row is stored), `get_stations` issues no directory call,
leaves the table unchanged, and returns exactly the stored set for that
country (as row dicts) together with its size. -/
theorem c2_cache_hit :
    ∀ (w : World) (c : String) (now : Int),
      w.lookupErr = false →
      (∀ r ∈ w.table, r.country = some c → now - r.last_updated < cache_expiry) →
      storedFor w.table c ≠ [] →
      get_stations w c now =
        ⟨(storedFor w.table c).map rowDict, (storedFor w.table c).length, w.table, []⟩ := by
  intro w c now hl hfresh hne
  have hc : get_cached_stations w.table c now cache_expiry = storedFor w.table c :=
    cached_eq_stored_of_fresh hfresh
  have hE : (get_cached_stations w.table c now cache_expiry).isEmpty = false := by
    rw [hc]
    cases h2 : (storedFor w.table c).isEmpty
    · rfl
    · exact absurd (List.isEmpty_iff.mp h2) hne
  have hcore := core_hit hl hE
  rw [hc] at hcore
  exact get_stations_of_core_ok hcore

/-- Claim C2, witness: a world with one fresh row for Germany. -/
theorem c2_witness :
    get_stations hitWorld "Germany" 100 =
      ⟨(storedFor hitWorld.table "Germany").map rowDict,
       (storedFor hitWorld.table "Germany").length, hitWorld.table, []⟩ :=
  c2_cache_hit hitWorld "Germany" 100 rfl (by decide) (by decide)

/-- Claim C3, failing-input evaluation: on a cache miss (empty Store,
country Germany, directory answering the one-station set) the code issues
exactly the specified search call — country exact-match,
`hidebroken=true`, `order=votes` with `reverse=true`, capped at 500 — and
returns the fetched set with its size, but the Store is left unchanged:
the `INSERT OR REPLACE` batch is rolled back when `_cache_stations`
closes its connection without commit, so nothing stamped with `now` is
written before returning. -/
theorem c3_write_rolled_back :
    get_stations missWorld "Germany" 0 =
      ⟨[sampleStation].map dirDict, 1, [], [searchQuery "Germany"]⟩ ∧
    searchQuery "Germany" = ⟨"Germany", "true", "votes", "true", 500⟩ ∧
    (get_stations missWorld "Germany" 0).table = missWorld.table ∧
    storedFor (get_stations missWorld "Germany" 0).table "Germany" = [] :=
  ⟨rfl, rfl, rfl, rfl⟩

/-- Claim C4, counterexample: a row whose age is exactly the expiry
window (written at 0, queried at 21600 = 6h with the 6-hour expiry)
satisfies the claimed inclusive bound `t - lastUpdated <= expiry`, yet
the lookup does NOT return it — the code's freshness test is strict. -/
theorem c4_counterexample :
    (21600 : Int) - sampleRow.last_updated ≤ cache_expiry ∧
    sampleRow.country = some "Germany" ∧
    get_cached_stations [sampleRow] "Germany" 21600 cache_expiry = [] := by
  exact ⟨by decide, rfl, rfl⟩

/-- Claim C4, amended: a row is treated as fresh iff
`t - lastUpdated < expiry`, strict at the boundary (the SQL comparison is
`last_updated > t - expiry`); in particular, under the 6-hour expiry a
row written at 0 is returned at 5h59m (21540) and not at 6h01m (21660). -/
theorem c4_fresh_strict :
    (∀ (tbl : List Row) (c : String) (now expiry : Int) (r : Row),
      r ∈ get_cached_stations tbl c now expiry ↔
        r ∈ tbl ∧ r.country = some c ∧ now - r.last_updated < expiry) ∧
    sampleRow ∈ get_cached_stations [sampleRow] "Germany" 21540 cache_expiry ∧
    sampleRow ∉ get_cached_stations [sampleRow] "Germany" 21660 cache_expiry := by
  have hmain : ∀ (tbl : List Row) (c : String) (now expiry : Int) (r : Row),
      r ∈ get_cached_stations tbl c now expiry ↔
        r ∈ tbl ∧ r.country = some c ∧ now - r.last_updated < expiry := by
    intro tbl c now expiry r
    unfold get_cached_stations
    rw [List.mem_filter]
    simp only [decide_eq_true_eq]
    constructor
    · rintro ⟨h1, h2, h3⟩
      exact ⟨h1, h2, by omega⟩
    · rintro ⟨h1, h2, h3⟩
      exact ⟨h1, h2, by omega⟩
  refine ⟨hmain, ?_, ?_⟩
  · exact (hmain [sampleRow] "Germany" 21540 cache_expiry sampleRow).mpr
      ⟨List.mem_singleton.mpr rfl, rfl, by decide⟩
  · intro h
    have := ((hmain [sampleRow] "Germany" 21660 cache_expiry sampleRow).mp h).2.2
    exact absurd this (by decide)

/-- Claim C4, witness: the strict characterization applied at the
5h59m-old concrete row. -/
theorem c4_witness :
    sampleRow ∈ get_cached_stations [sampleRow] "Germany" 21540 cache_expiry :=
  (c4_fresh_strict.1 [sampleRow] "Germany" 21540 cache_expiry sampleRow).mpr
    ⟨List.mem_singleton.mpr rfl, rfl, by decide⟩

/-- Claim C5: `get_stations` never raises — whatever exception escapes
the try-body (transport failure on the search, storage failure on lookup
or write), the caller sees the normal return `([], 0)`. -/
theorem c5_never_raises :
    ∀ (w : World) (c : String) (now : Int) (f : Failure)
      (tbl : List Row) (calls : List Query),
      get_stations_core w c now = ⟨Except.error f, tbl, calls⟩ →
      (get_stations w c now).result = [] ∧ (get_stations w c now).count = 0 := by
  intro w c now f tbl calls h
  rw [get_stations_of_core_err h]
  exact ⟨rfl, rfl⟩

/-- Claim C5, witness: a transport failure during the station search
yields the pair `([], 0)`. -/
theorem c5_witness :
    (get_stations transportFailWorld "France" 0).result = [] ∧
    (get_stations transportFailWorld "France" 0).count = 0 :=
  c5_never_raises transportFailWorld "France" 0 Failure.transport []
    [searchQuery "France"] rfl

/-- Claim C6, counterexample: when the cache lookup raises a storage
error, `get_stations` issues NO directory search and returns `([], 0)`,
even though the directory would have answered with a station — the
failure is not treated as a cache miss forcing a refresh. -/
theorem c6_counterexample :
    failLookupWorld.lookupErr = true ∧
    failLookupWorld.dir (searchQuery "Germany") = Except.ok [sampleStation] ∧
    (get_stations failLookupWorld "Germany" 0).calls = [] ∧
    (get_stations failLookupWorld "Germany" 0).result = [] ∧
    (get_stations failLookupWorld "Germany" 0).count = 0 :=
  ⟨rfl, rfl, rfl, rfl, rfl⟩

/-- Claim C6, amended: a storage failure during the cache-lookup step is
recovered locally (caught by the surrounding handler, no exception to the
caller) but aborts the call: `get_stations` returns `([], 0)` without
issuing the directory search, rather than treating the failure as a
cache miss. -/
theorem c6_lookup_failure_returns_empty :
    ∀ (w : World) (c : String) (now : Int),
      w.lookupErr = true → get_stations w c now = ⟨[], 0, w.table, []⟩ := by
  intro w c now h
  exact get_stations_of_core_err (core_lookupErr h c now)

/-- Claim C6, witness: the amended behavior at a concrete failing world. -/
theorem c6_witness :
    get_stations failLookupWorld "Austria" 7 = ⟨[], 0, failLookupWorld.table, []⟩ :=
  c6_lookup_failure_returns_empty failLookupWorld "Austria" 7 rfl

/-- Re-executing a batch whose records all carry ids inside one open
transaction reproduces the same transaction state: `INSERT OR REPLACE`
is id-keyed replace there, not duplicate insertion. -/
theorem cache_stations_txn_idempotent :
    ∀ (tbl : List Row) (ss : List DirStation) (now : Int),
      (∀ s ∈ ss, s.stationuuid ≠ none) →
      cache_stations_txn (cache_stations_txn tbl ss now) ss now
        = cache_stations_txn tbl ss now := by
  intro tbl ss now h
  rw [cache_stations_txn_decomp ss now (cache_stations_txn tbl ss now),
      cache_stations_txn_decomp ss now tbl]
  rw [List.filter_append, filter_idem, filter_keptBy_self_nil h now]
  rw [List.append_nil]

/-- Claim C7, failing-input evaluation: applying the batch
`[sampleStation]` twice to an empty Store leaves the readable content
unchanged only vacuously — each application's `INSERT OR REPLACE` batch
is rolled back at connection close, the Store stays empty, and no row
keyed by the station's id is ever replaced or inserted in it. -/
theorem c7_rollback_no_upsert :
    cache_stations (cache_stations [] [sampleStation] 5) [sampleStation] 5 =
      cache_stations [] [sampleStation] 5 ∧
    cache_stations [] [sampleStation] 5 = [] ∧
    storedFor (cache_stations (cache_stations [] [sampleStation] 5) [sampleStation] 5)
      "Germany" = [] ∧
    sampleStation.stationuuid = some "uuid-1" ∧
    sampleStation.country = some "Germany" :=
  ⟨rfl, rfl, rfl, rfl, rfl⟩

/-- Claim C8: `play(url)` commands a stop first exactly when the engine
is currently playing (the stop is the first engine command, so at most
one stream is ever active), applies the sticky volume within the command
sequence, returns true iff the engine reports `play() == 0` when no
command raises, and returns false whenever any engine command raises. -/
theorem c8_play :
    ∀ (e : Engine) (playing : Bool) (vol : Int) (url : String),
      (playing = true → ((play e playing vol url).2).head? = some Cmd.stopCmd) ∧
      (playing = false → Cmd.stopCmd ∉ (play e playing vol url).2) ∧
      ((∀ c ∈ playTrace playing url vol, e.failsAt c = false) →
        (play e playing vol url).1 = decide (e.playRet = 0) ∧
        (play e playing vol url).2 = playTrace playing url vol ∧
        Cmd.setVol vol ∈ (play e playing vol url).2) ∧
      ((∃ c ∈ playTrace playing url vol, e.failsAt c = true) →
        (play e playing vol url).1 = false) := by
  intro e playing vol url
  refine ⟨?_, ?_, ?_, ?_⟩
  · intro hp
    rw [play_snd, hp]
    exact runCmds_head e Cmd.stopCmd
      [Cmd.newMedia url, Cmd.addOption "network-caching=3000", Cmd.setMedia,
       Cmd.setVol vol, Cmd.playCmd]
  · intro hp hmem
    rw [play_snd, hp] at hmem
    have hin : Cmd.stopCmd ∈ playTrace false url vol :=
      runCmds_subset e (playTrace false url vol) Cmd.stopCmd hmem
    simp [playTrace] at hin
  · intro h
    have hrun := runCmds_ok e (playTrace playing url vol) h
    constructor
    · unfold play
      rw [hrun]
      rfl
    constructor
    · rw [play_snd, hrun]
    · rw [play_snd, hrun]
      show Cmd.setVol vol ∈ playTrace playing url vol
      unfold playTrace
      exact List.mem_append.mpr (Or.inr (by simp))
  · rintro ⟨c, hc, hfc⟩
    have hrun := runCmds_fail e (playTrace playing url vol) ⟨c, hc, hfc⟩
    unfold play
    rw [if_neg (by simp [hrun])]

/-- Claim C8, witness: on an engine where nothing raises and `play()`
returns 0, starting while already playing. -/
theorem c8_witness :
    (play engOk true 70 "http://stream.example/one").1 = decide (engOk.playRet = 0) ∧
    (play engOk true 70 "http://stream.example/one").2 =
      playTrace true "http://stream.example/one" 70 ∧
    Cmd.setVol 70 ∈ (play engOk true 70 "http://stream.example/one").2 :=
  (c8_play engOk true 70 "http://stream.example/one").2.2.1 (fun _ _ => rfl)

/-- Claim C9: `set_volume(v)` accepts exactly the integers in [0, 100]:
in range, the sticky volume becomes `v` and the engine volume is set when
a player handle exists; out of range, nothing changes and no engine
command is issued (and no error is raised — the function is total). -/
theorem c9_set_volume :
    ∀ (sticky : Int) (hasPlayer : Bool) (v : Int),
      ((0 ≤ v ∧ v ≤ 100) →
        set_volume sticky hasPlayer v =
          (v, if hasPlayer then [Cmd.setVol v] else [])) ∧
      (¬(0 ≤ v ∧ v ≤ 100) → set_volume sticky hasPlayer v = (sticky, [])) := by
  intro sticky hasPlayer v
  constructor
  · intro h
    unfold set_volume
    rw [if_pos h]
  · intro h
    unfold set_volume
    rw [if_neg h]

/-- Claim C9, witness: 0 and 100 accepted, 150 and -1 silent no-ops. -/
theorem c9_witness :
    set_volume 70 true 0 = (0, [Cmd.setVol 0]) ∧
    set_volume 70 true 100 = (100, [Cmd.setVol 100]) ∧
    set_volume 70 true 150 = (70, []) ∧
    set_volume 70 true (-1) = (70, []) :=
  ⟨(c9_set_volume 70 true 0).1 (by decide),
   (c9_set_volume 70 true 100).1 (by decide),
   (c9_set_volume 70 true 150).2 (by decide),
   (c9_set_volume 70 true (-1)).2 (by decide)⟩

/-- Claim C10: cache-hit records carry exactly the storage column names
(`id ... last_updated`) and lack `bitrate` and `votes`, cache-miss
records are the raw directory dicts (`stationuuid`, `countrycode`,
`geo_lat`, `geo_long`, ...), the two shapes are never equal, and every
record `get_stations` returns is of one of these two shapes. -/
theorem c10_record_shapes :
    ∀ (r : Row) (s : DirStation) (w : World) (c : String) (now : Int) (rec : Rec),
      (rowDict r).map Prod.fst = rowKeys ∧
      (dirDict s).map Prod.fst = dirKeys ∧
      ("bitrate" ∉ rowKeys ∧ "votes" ∉ rowKeys ∧ "stationuuid" ∈ dirKeys ∧
        "countrycode" ∈ dirKeys ∧ "geo_lat" ∈ dirKeys ∧ "geo_long" ∈ dirKeys ∧
        "bitrate" ∈ dirKeys ∧ "votes" ∈ dirKeys) ∧
      rowDict r ≠ dirDict s ∧
      (rec ∈ (get_stations w c now).result →
        rec.map Prod.fst = rowKeys ∨ rec.map Prod.fst = dirKeys) := by
  intro r s w c now rec
  refine ⟨rfl, rfl, by decide, ?_, ?_⟩
  · intro h
    have h2 : (rowDict r).map Prod.fst = (dirDict s).map Prod.fst := by rw [h]
    have h3 : rowKeys = dirKeys := h2
    exact absurd h3 (by decide)
  · intro hmem
    rcases get_stations_result_cases w c now with h | h | h
    · rw [h] at hmem
      cases hmem
    · obtain ⟨rows, hrows⟩ := h
      rw [hrows] at hmem
      obtain ⟨q, _, rfl⟩ := List.mem_map.mp hmem
      exact Or.inl rfl
    · obtain ⟨ss, hss⟩ := h
      rw [hss] at hmem
      obtain ⟨q, _, rfl⟩ := List.mem_map.mp hmem
      exact Or.inr rfl

/-- Claim C10, witness: the record returned on the concrete hit path has
the storage-column shape. -/
theorem c10_witness :
    rowDict sampleRow ∈ (get_stations hitWorld "Germany" 100).result ∧
    ((rowDict sampleRow).map Prod.fst = rowKeys ∨
      (rowDict sampleRow).map Prod.fst = dirKeys) :=
  ⟨by decide,
   (c10_record_shapes sampleRow sampleStation hitWorld "Germany" 100
      (rowDict sampleRow)).2.2.2.2 (by decide)⟩

end RadioGlobe
